import Mathlib

/-!
Verification of `watermark_tool.py`: a batch tool that overlays a photo's
EXIF capture date as a text watermark.  The Python source is shallowly
embedded below: pure functions become Lean functions, the fallible library
services (image decoding, EXIF loading, saving) become explicit
`Except`-valued fields of an environment record, Python `try/except`
becomes composition of `Except` computations whose error branch is mapped
to the caught outcome, and Python integers and `//` become `Int` and
`Int.fdiv` (floor division).
-/

namespace Watermark

/-- Embedding of `get_watermark_position(img_width, img_height, text_width,
text_height, position)` (watermark_tool.py lines 34-53).  Python `//` is
floor division, i.e. `Int.fdiv`; the trailing `else` of the Python chain is
the final value (the bottom-right formula). -/
def get_watermark_position (img_width img_height text_width text_height : Int)
    (position : String) : Int × Int :=
  let padding : Int := 20
  if position = "top-left" then (padding, padding)
  else if position = "top-right" then (img_width - text_width - padding, padding)
  else if position = "bottom-left" then (padding, img_height - text_height - padding)
  else if position = "bottom-right" then
    (img_width - text_width - padding, img_height - text_height - padding)
  else if position = "center" then
    (Int.fdiv (img_width - text_width) 2, Int.fdiv (img_height - text_height) 2)
  else if position = "top-center" then (Int.fdiv (img_width - text_width) 2, padding)
  else if position = "bottom-center" then
    (Int.fdiv (img_width - text_width) 2, img_height - text_height - padding)
  else (img_width - text_width - padding, img_height - text_height - padding)

/-- The anchor strings recognized by the `if/elif` chain of
`get_watermark_position`; any other string takes the trailing `else`. -/
def recognizedAnchors : List String :=
  ["top-left", "top-right", "bottom-left", "bottom-right",
   "center", "top-center", "bottom-center"]

lemma fdiv_two_ge (a : Int) (h : 41 ≤ a) : 20 ≤ Int.fdiv a 2 := by
  have h2 : Int.fdiv a 2 = a / 2 := Int.fdiv_eq_ediv a (by norm_num)
  omega

lemma fdiv_two_bound (a : Int) (h : 41 ≤ a) : a - Int.fdiv a 2 ≥ 21 := by
  have h2 : Int.fdiv a 2 = a / 2 := Int.fdiv_eq_ediv a (by norm_num)
  omega

/-- Claim C1: for every anchor string (hence in particular every enumerated
anchor value) and all integer dimensions with `text_width < img_width - 40`
and `text_height < img_height - 40`, the returned coordinates keep the text
box within a 20px margin of every edge, and on each named anchor the result
is exactly the per-anchor formula of the spec's table (floor division for
the centered cases). -/
theorem get_watermark_position_in_margins
    (position : String) (w h tw th : Int)
    (hw : tw < w - 40) (hh : th < h - 40) :
    (20 ≤ (get_watermark_position w h tw th position).1 ∧
     (get_watermark_position w h tw th position).1 + tw ≤ w - 20 ∧
     20 ≤ (get_watermark_position w h tw th position).2 ∧
     (get_watermark_position w h tw th position).2 + th ≤ h - 20) ∧
    get_watermark_position w h tw th "top-left" = (20, 20) ∧
    get_watermark_position w h tw th "top-right" = (w - tw - 20, 20) ∧
    get_watermark_position w h tw th "top-center" = (Int.fdiv (w - tw) 2, 20) ∧
    get_watermark_position w h tw th "bottom-left" = (20, h - th - 20) ∧
    get_watermark_position w h tw th "bottom-right" = (w - tw - 20, h - th - 20) ∧
    get_watermark_position w h tw th "bottom-center" =
      (Int.fdiv (w - tw) 2, h - th - 20) ∧
    get_watermark_position w h tw th "center" =
      (Int.fdiv (w - tw) 2, Int.fdiv (h - th) 2) := by
  constructor
  · have hx : 41 ≤ w - tw := by omega
    have hy : 41 ≤ h - th := by omega
    have hx1 := fdiv_two_ge (w - tw) hx
    have hx2 := fdiv_two_bound (w - tw) hx
    have hy1 := fdiv_two_ge (h - th) hy
    have hy2 := fdiv_two_bound (h - th) hy
    unfold get_watermark_position
    by_cases h1 : position = "top-left" <;>
      by_cases h2 : position = "top-right" <;>
      by_cases h3 : position = "bottom-left" <;>
      by_cases h4 : position = "bottom-right" <;>
      by_cases h5 : position = "center" <;>
      by_cases h6 : position = "top-center" <;>
      by_cases h7 : position = "bottom-center" <;>
      simp_all <;> omega
  · refine ⟨?_, ?_, ?_, ?_, ?_, ?_, ?_⟩ <;> simp [get_watermark_position]

/-- Witness for C1 at a concrete input: a 200×100 image with a 60×20 text
box at anchor "center". -/
theorem get_watermark_position_in_margins_witness :
    (20 ≤ (get_watermark_position 200 100 60 20 "center").1 ∧
     (get_watermark_position 200 100 60 20 "center").1 + 60 ≤ 200 - 20 ∧
     20 ≤ (get_watermark_position 200 100 60 20 "center").2 ∧
     (get_watermark_position 200 100 60 20 "center").2 + 20 ≤ 100 - 20) ∧
    get_watermark_position 200 100 60 20 "top-left" = (20, 20) ∧
    get_watermark_position 200 100 60 20 "top-right" = (200 - 60 - 20, 20) ∧
    get_watermark_position 200 100 60 20 "top-center" = (Int.fdiv (200 - 60) 2, 20) ∧
    get_watermark_position 200 100 60 20 "bottom-left" = (20, 100 - 20 - 20) ∧
    get_watermark_position 200 100 60 20 "bottom-right" =
      (200 - 60 - 20, 100 - 20 - 20) ∧
    get_watermark_position 200 100 60 20 "bottom-center" =
      (Int.fdiv (200 - 60) 2, 100 - 20 - 20) ∧
    get_watermark_position 200 100 60 20 "center" =
      (Int.fdiv (200 - 60) 2, Int.fdiv (100 - 20) 2) :=
  get_watermark_position_in_margins "center" 200 100 60 20 (by norm_num) (by norm_num)

/-- Claim C6: any anchor string outside the seven recognized values yields
exactly the result of the "bottom-right" anchor on the same dimensions. -/
theorem get_watermark_position_default_eq_bottom_right
    (position : String) (hpos : position ∉ recognizedAnchors)
    (w h tw th : Int) :
    get_watermark_position w h tw th position =
      get_watermark_position w h tw th "bottom-right" := by
  simp only [recognizedAnchors, List.mem_cons, List.mem_singleton, not_or] at hpos
  obtain ⟨h1, h2, h3, h4, h5, h6, h7, -⟩ := hpos
  simp [get_watermark_position, h1, h2, h3, h4, h5, h6, h7]

/-- Witness for C6: the unrecognized anchor "middle" on a 300×200 image. -/
theorem get_watermark_position_default_eq_bottom_right_witness :
    get_watermark_position 300 200 50 30 "middle" =
      get_watermark_position 300 200 50 30 "bottom-right" :=
  get_watermark_position_default_eq_bottom_right "middle" (by decide) 300 200 50 30

/-- Claim C10: `get_watermark_position` is total: on every anchor string
whatsoever and all integer inputs, including zero and negative dimensions,
it returns a pair of integers, each coordinate drawn from the three formula
shapes of the source (margin constant, edge-aligned, centered), and on any
unrecognized anchor the returned pair is the bottom-right formula. -/
theorem get_watermark_position_total
    (position : String) (w h tw th : Int) :
    (∃ x y : Int, get_watermark_position w h tw th position = (x, y) ∧
      (x = 20 ∨ x = w - tw - 20 ∨ x = Int.fdiv (w - tw) 2) ∧
      (y = 20 ∨ y = h - th - 20 ∨ y = Int.fdiv (h - th) 2)) ∧
    (position ∉ recognizedAnchors →
      get_watermark_position w h tw th position = (w - tw - 20, h - th - 20)) := by
  constructor
  · unfold get_watermark_position
    by_cases h1 : position = "top-left" <;>
      by_cases h2 : position = "top-right" <;>
      by_cases h3 : position = "bottom-left" <;>
      by_cases h4 : position = "bottom-right" <;>
      by_cases h5 : position = "center" <;>
      by_cases h6 : position = "top-center" <;>
      by_cases h7 : position = "bottom-center" <;>
      simp_all <;>
      exact ⟨_, _, ⟨rfl, rfl⟩, by tauto, by tauto⟩
  · intro hpos
    simp only [recognizedAnchors, List.mem_cons, List.mem_singleton, not_or] at hpos
    obtain ⟨h1, h2, h3, h4, h5, h6, h7, -⟩ := hpos
    simp [get_watermark_position, h1, h2, h3, h4, h5, h6, h7]

/-- Witness for C10 at a degenerate concrete input: anchor "mid" (not
recognized) with zero and negative dimensions still returns a pair drawn
from the formula shapes, equal to the bottom-right formula. -/
theorem get_watermark_position_total_witness :
    (∃ x y : Int, get_watermark_position 0 (-5) 0 (-7) "mid" = (x, y) ∧
      (x = 20 ∨ x = 0 - 0 - 20 ∨ x = Int.fdiv (0 - 0) 2) ∧
      (y = 20 ∨ y = -5 - (-7) - 20 ∨ y = Int.fdiv (-5 - (-7)) 2)) ∧
    ("mid" ∉ recognizedAnchors →
      get_watermark_position 0 (-5) 0 (-7) "mid" = (0 - 0 - 20, -5 - (-7) - 20)) :=
  get_watermark_position_total "mid" 0 (-5) 0 (-7)

/-! ### Python path primitives (POSIX), modelled on `List Char`

`main` builds the output directory with
`os.path.join(input_dir, f"{os.path.basename(input_dir)}_watermark")`
(watermark_tool.py line 146).  We model the three `os.path` primitives the
program uses, faithful to their POSIX semantics on character lists. -/

/-- `os.path.basename`: everything after the last slash (empty if the path
ends with a slash). -/
def pyBasename (p : List Char) : List Char :=
  (p.reverse.takeWhile (fun c => c != '/')).reverse

/-- Two-argument `os.path.join`: an absolute second component replaces the
first; otherwise the parts are glued, inserting a slash unless the first
part is empty or already ends with one. -/
def pyJoin (a b : List Char) : List Char :=
  if b.head? = some '/' then b
  else if a = [] ∨ a.getLast? = some '/' then a ++ b
  else a ++ '/' :: b

/-- Helper of `os.path.split`: remove trailing slashes. -/
def stripTrailingSlashes (p : List Char) : List Char :=
  (p.reverse.dropWhile (fun c => c == '/')).reverse

/-- `os.path.dirname`: the part before the last slash, with trailing slashes
stripped unless the result consists only of slashes. -/
def pyDirname (p : List Char) : List Char :=
  let head := (p.reverse.dropWhile (fun c => c != '/')).reverse
  if head ≠ [] ∧ head.any (fun c => c != '/') then stripTrailingSlashes head else head

/-- The output directory computed by `main` (line 146):
`os.path.join(input_dir, basename(input_dir) + "_watermark")`. -/
def output_dir (input_dir : List Char) : List Char :=
  pyJoin input_dir (pyBasename input_dir ++ "_watermark".toList)

lemma mem_pyBasename_ne_slash (p : List Char) :
    ∀ c ∈ pyBasename p, (c == '/') = false := by
  intro c hc
  unfold pyBasename at hc
  rw [List.mem_reverse] at hc
  have := List.mem_takeWhile_imp hc
  simpa using this

lemma dropWhile_append_all (p : Char → Bool) (l1 l2 : List Char)
    (h : ∀ c ∈ l1, p c = true) :
    List.dropWhile p (l1 ++ l2) = List.dropWhile p l2 := by
  induction l1 with
  | nil => simp
  | cons a t ih =>
      rw [List.cons_append, List.dropWhile_cons, if_pos (h a (by simp))]
      exact ih (fun c hc => h c (by simp [hc]))

lemma dropWhile_cons_false (p : Char → Bool) (a : Char) (l : List Char)
    (h : p a = false) : List.dropWhile p (a :: l) = a :: l := by
  rw [List.dropWhile_cons, if_neg (by simp [h])]

lemma pyJoin_eq_append (a b : List Char) (ha : a ≠ [])
    (ha2 : a.getLast? ≠ some '/') (hb : b.head? ≠ some '/') :
    pyJoin a b = a ++ '/' :: b := by
  unfold pyJoin
  rw [if_neg hb, if_neg (by rw [not_or]; exact ⟨ha, ha2⟩)]

lemma pyDirname_append_slash (d t : List Char) (hd : d ≠ [])
    (hlast : d.getLast? ≠ some '/') (ht : ∀ c ∈ t, (c == '/') = false) :
    pyDirname (d ++ '/' :: t) = d := by
  have hrev : (d ++ '/' :: t).reverse = t.reverse ++ '/' :: d.reverse := by
    simp
  have hdrop : List.dropWhile (fun c => c != '/') ((d ++ '/' :: t).reverse)
      = '/' :: d.reverse := by
    rw [hrev, dropWhile_append_all _ _ _
      (fun c hc => by simp [bne, ht c (List.mem_reverse.mp hc)]),
      dropWhile_cons_false _ _ _ (by simp)]
  have hlast' : d.getLast hd ≠ '/' := by
    intro hcontra
    exact hlast (by rw [List.getLast?_eq_getLast_of_ne_nil hd, hcontra])
  have hhead : ('/' :: d.reverse).reverse = d ++ ['/'] := by simp
  unfold pyDirname
  simp only [hdrop, hhead]
  rw [if_pos]
  · unfold stripTrailingSlashes
    have h2 : (d ++ ['/']).reverse = '/' :: d.reverse := by simp
    rw [h2, List.dropWhile_cons, if_pos (by simp)]
    cases hrd : d.reverse with
    | nil => exact absurd (by simpa using congrArg List.reverse hrd) hd
    | cons a t' =>
        have ha : a = d.getLast hd := by
          have h1 : d.reverse.head? = some a := by rw [hrd]; rfl
          rw [List.head?_reverse, List.getLast?_eq_getLast_of_ne_nil hd] at h1
          exact (Option.some_injective _ h1).symm
        rw [dropWhile_cons_false _ _ _ (by simp [ha, hlast' ])]
        rw [← hrd, List.reverse_reverse]
  · constructor
    · simp
    · rw [List.any_eq_true]
      exact ⟨d.getLast hd, List.mem_append_left _ (List.getLast_mem hd),
        by simp [hlast' ]⟩

lemma output_dir_tail_no_slash (d : List Char) :
    ∀ c ∈ pyBasename d ++ "_watermark".toList, (c == '/') = false := by
  intro c hc
  rcases List.mem_append.mp hc with h | h
  · exact mem_pyBasename_ne_slash d c h
  · fin_cases h <;> decide

lemma output_dir_eq (d : List Char) (hd : d ≠ [])
    (hlast : d.getLast? ≠ some '/') :
    output_dir d = d ++ '/' :: (pyBasename d ++ "_watermark".toList) := by
  apply pyJoin_eq_append _ _ hd hlast
  intro hcontra
  cases hb : pyBasename d with
  | nil =>
      rw [hb] at hcontra
      simp at hcontra
  | cons a t =>
      rw [hb] at hcontra
      have ha : a = '/' := by simpa using hcontra
      have hmem := mem_pyBasename_ne_slash d a (by rw [hb]; exact List.mem_cons_self _ _)
      rw [ha] at hmem
      simp at hmem

/-- Claim C4 counterexample: on the claim's own example input directory
`/tmp/photos`, the computed output directory `/tmp/photos/photos_watermark`
is a child of the input directory (its `dirname` is the input directory
itself), not a sibling (their `dirname`s differ: `/tmp/photos` vs `/tmp`). -/
theorem output_dir_not_sibling :
    output_dir ("/tmp/photos".toList) = "/tmp/photos/photos_watermark".toList ∧
    pyDirname (output_dir ("/tmp/photos".toList)) = "/tmp/photos".toList ∧
    pyDirname ("/tmp/photos".toList) = "/tmp".toList ∧
    pyDirname (output_dir ("/tmp/photos".toList)) ≠ pyDirname ("/tmp/photos".toList) := by
  refine ⟨by decide, by decide, by decide, by decide⟩

/-- Claim C4 (amended): for every nonempty input directory path not ending
in a slash, the output directory is a subdirectory (child) of the input
directory — not a sibling — distinct from it, named deterministically as
`<baseName(inputDir)>_watermark` appended below the input directory. -/
theorem output_dir_is_child (d : List Char) (hd : d ≠ [])
    (hlast : d.getLast? ≠ some '/') :
    pyDirname (output_dir d) = d ∧
    output_dir d ≠ d ∧
    output_dir d = d ++ '/' :: (pyBasename d ++ "_watermark".toList) := by
  have he := output_dir_eq d hd hlast
  refine ⟨?_, ?_, he⟩
  · rw [he]
    exact pyDirname_append_slash d _ hd hlast (output_dir_tail_no_slash d)
  · rw [he]
    intro hcontra
    have := congrArg List.length hcontra
    simp at this

/-- Witness for C4's amended claim at the concrete input `/tmp/photos`. -/
theorem output_dir_is_child_witness :
    pyDirname (output_dir ("/tmp/photos".toList)) = "/tmp/photos".toList ∧
    output_dir ("/tmp/photos".toList) ≠ "/tmp/photos".toList ∧
    output_dir ("/tmp/photos".toList) =
      "/tmp/photos".toList ++ '/' :: (pyBasename ("/tmp/photos".toList) ++ "_watermark".toList) :=
  output_dir_is_child ("/tmp/photos".toList) (by decide) (by decide)

/-! ### EXIF date extraction (`get_exif_date`, watermark_tool.py lines 14-32)

`piexif.load` yields a dictionary from section names (`"0th"`, `"Exif"`, ...)
to dictionaries from integer tag ids to raw byte strings; loading can raise,
which we model with `Except`.  The tag values are decoded as strict UTF-8
(Python `bytes.decode("utf-8")`), parsed with
`datetime.strptime(s, "%Y:%m:%d %H:%M:%S")` and reformatted with
`strftime("%Y年%m月%d日")`; each step can raise, and the whole body sits in
a `try/except` that turns any exception into the result `None`. -/

/-- A loaded EXIF dictionarymapping section names to tag-to-bytes maps. -/
structure ExifDict where
  sections : List (String × List (Nat × List Nat))

/-- Dictionary lookup of a section by name (`"Exif" in exif_dict` plus
`exif_dict["Exif"]`). -/
def findSection (d : ExifDict) (name : String) : Option (List (Nat × List Nat)) :=
  (d.sections.find? (fun s => s.1 == name)).map Prod.snd

/-- Dictionary lookup of a tag inside a section. -/
def findTag (sec : List (Nat × List Nat)) (tag : Nat) : Option (List Nat) :=
  (sec.find? (fun t => t.1 == tag)).map Prod.snd

/-- `piexif.ExifIFD.DateTimeOriginal`. -/
def DateTimeOriginalTag : Nat := 36867

/-- `piexif.ImageIFD.DateTime`. -/
def DateTimeTag : Nat := 306

/-- The guard of lines 20-22: `'Exif' in exif_dict and
piexif.ExifIFD.DateTimeOriginal in exif_dict['Exif']`, returning the bytes. -/
def dateTimeOriginalField (d : ExifDict) : Option (List Nat) :=
  (findSection d "Exif").bind (fun sec => findTag sec DateTimeOriginalTag)

/-- The guard of lines 25-27: `'0th' in exif_dict and
piexif.ImageIFD.DateTime in exif_dict['0th']`, returning the bytes. -/
def dateTimeField (d : ExifDict) : Option (List Nat) :=
  (findSection d "0th").bind (fun sec => findTag sec DateTimeTag)

/-- Is a byte a UTF-8 continuation byte (`0x80..0xBF`)? -/
def isCont (b : Nat) : Bool := 0x80 ≤ b ∧ b ≤ 0xBF

/-- Strict UTF-8 decoding of a byte string, as Python's
`bytes.decode("utf-8")` with default strict error handling: any malformed,
overlong, surrogate or out-of-range sequence raises. -/
def decodeUtf8 : List Nat → Except String (List Char)
  | [] => .ok []
  | b1 :: t1 =>
    if b1 < 0x80 then
      (decodeUtf8 t1).map (fun s => Char.ofNat b1 :: s)
    else if 0xC2 ≤ b1 ∧ b1 ≤ 0xDF then
      match t1 with
      | b2 :: t2 =>
        if isCont b2 then
          (decodeUtf8 t2).map (fun s => Char.ofNat ((b1 - 0xC0) * 0x40 + (b2 - 0x80)) :: s)
        else .error "invalid continuation byte"
      | [] => .error "unexpected end of data"
    else if 0xE0 ≤ b1 ∧ b1 ≤ 0xEF then
      match t1 with
      | b2 :: b3 :: t3 =>
        if (if b1 = 0xE0 then 0xA0 ≤ b2 ∧ b2 ≤ 0xBF
            else if b1 = 0xED then 0x80 ≤ b2 ∧ b2 ≤ 0x9F
            else isCont b2 = true) ∧ isCont b3 = true then
          (decodeUtf8 t3).map (fun s =>
            Char.ofNat ((b1 - 0xE0) * 0x1000 + (b2 - 0x80) * 0x40 + (b3 - 0x80)) :: s)
        else .error "invalid continuation byte"
      | _ => .error "unexpected end of data"
    else if 0xF0 ≤ b1 ∧ b1 ≤ 0xF4 then
      match t1 with
      | b2 :: b3 :: b4 :: t4 =>
        if (if b1 = 0xF0 then 0x90 ≤ b2 ∧ b2 ≤ 0xBF
            else if b1 = 0xF4 then 0x80 ≤ b2 ∧ b2 ≤ 0x8F
            else isCont b2 = true) ∧ isCont b3 = true ∧ isCont b4 = true then
          (decodeUtf8 t4).map (fun s =>
            Char.ofNat ((b1 - 0xF0) * 0x40000 + (b2 - 0x80) * 0x1000 +
              (b3 - 0x80) * 0x40 + (b4 - 0x80)) :: s)
        else .error "invalid continuation byte"
      | _ => .error "unexpected end of data"
    else .error "invalid start byte"

/-- Numeric value of an ASCII digit.  (`strptime` uses `\d`; EXIF timestamp
strings are ASCII, which is the fragment we model.) -/
def digitVal (c : Char) : Option Nat :=
  if '0' ≤ c ∧ c ≤ '9' then some (c.toNat - 48) else none

/-- Split a leading run of ASCII digits from the input. -/
def takeDigits : List Char → List Nat × List Char
  | [] => ([], [])
  | c :: t =>
    match digitVal c with
    | some d => let p := takeDigits t; (d :: p.1, p.2)
    | none => ([], c :: t)

/-- The numeric value of a digit run. -/
def digitsVal (ds : List Nat) : Nat := ds.foldl (fun a d => 10 * a + d) 0

/-- A one-or-two-digit `strptime` field (as the regexes `1[0-2]|0[1-9]|[1-9]`
etc.): a single digit in `[oneLo, oneHi]` or two digits in `[twoLo, twoHi]`. -/
def validField (ds : List Nat) (oneLo oneHi twoLo twoHi : Nat) : Option Nat :=
  let v := digitsVal ds
  if ds.length = 1 ∧ oneLo ≤ v ∧ v ≤ oneHi then some v
  else if ds.length = 2 ∧ twoLo ≤ v ∧ v ≤ twoHi then some v
  else none

/-- ASCII whitespace, as matched by the `\s+` that `strptime` substitutes
for a literal space in the format. -/
def isSpaceChar (c : Char) : Bool :=
  c = ' ' ∨ c = '\t' ∨ c = '\n' ∨ c = '\x0b' ∨ c = '\x0c' ∨ c = '\r'

/-- Proleptic-Gregorian leap year, as `datetime`. -/
def isLeapYear (y : Nat) : Bool := y % 4 = 0 ∧ (y % 100 ≠ 0 ∨ y % 400 = 0)

/-- Number of days in a month, as validated by the `datetime` constructor. -/
def daysInMonth (y m : Nat) : Nat :=
  if m = 2 then (if isLeapYear y then 29 else 28)
  else if m = 4 ∨ m = 6 ∨ m = 9 ∨ m = 11 then 30
  else 31

/-- A parsed timestamp. -/
structure DateTime6 where
  year : Nat
  month : Nat
  day : Nat
  hour : Nat
  minute : Nat
  second : Nat
deriving DecidableEq

/-- `datetime.strptime(s, "%Y:%m:%d %H:%M:%S")`: `%Y` is exactly four
digits, `%m`/`%d` one or two digits within range, the literal space matches
one or more whitespace characters, `%H`/`%M`/`%S` one or two digits within
range; trailing input is an error, and the resulting calendar date must be
valid (year at least 1, day within the month). -/
def strptimeYmdHMS (s : List Char) : Except String DateTime6 :=
  let p1 := takeDigits s
  if p1.1.length = 4 then
    match p1.2 with
    | ':' :: r2 =>
      let pm := takeDigits r2
      match validField pm.1 1 9 1 12 with
      | some m =>
        (match pm.2 with
         | ':' :: r4 =>
           let pd := takeDigits r4
           match validField pd.1 1 9 1 31 with
           | some d =>
             let r5 := pd.2
             let r6 := r5.dropWhile isSpaceChar
             if r6.length < r5.length then
               let ph := takeDigits r6
               match validField ph.1 0 9 0 23 with
               | some hh =>
                 (match ph.2 with
                  | ':' :: r8 =>
                    let pmin := takeDigits r8
                    match validField pmin.1 0 9 0 59 with
                    | some mm =>
                      (match pmin.2 with
                       | ':' :: r10 =>
                         let ps := takeDigits r10
                         match validField ps.1 0 9 0 59 with
                         | some ss =>
                           if ps.2 = [] then
                             let y := digitsVal p1.1
                             if 1 ≤ y ∧ d ≤ daysInMonth y m then
                               .ok ⟨y, m, d, hh, mm, ss⟩
                             else .error "day is out of range for month"
                           else .error "unconverted data remains"
                         | none => .error "time data does not match format"
                       | _ => .error "time data does not match format")
                    | none => .error "time data does not match format"
                  | _ => .error "time data does not match format")
               | none => .error "time data does not match format"
             else .error "time data does not match format"
           | none => .error "time data does not match format"
         | _ => .error "time data does not match format")
      | none => .error "time data does not match format"
    | _ => .error "time data does not match format"
  else .error "time data does not match format"

/-- Zero-pad a number to two digits (`%m`, `%d` of `strftime`). -/
def pad2 (n : Nat) : String :=
  if n < 10 then "0" ++ toString n else toString n

/-- Zero-pad a number to four digits (`%Y` of `strftime`). -/
def pad4 (n : Nat) : String :=
  if n < 10 then "000" ++ toString n
  else if n < 100 then "00" ++ toString n
  else if n < 1000 then "0" ++ toString n
  else toString n

/-- `strftime("%Y年%m月%d日")`. -/
def formatYmd (t : DateTime6) : String :=
  pad4 t.year ++ "年" ++ pad2 t.month ++ "月" ++ pad2 t.day ++ "日"

/-- Decode, parse and reformat one EXIF timestamp value (lines 21-22 resp.
26-27); any failing step raises. -/
def tryParseBytes (bs : List Nat) : Except String String := do
  let s ← decodeUtf8 bs
  let t ← strptimeYmdHMS s
  pure (formatYmd t)

/-- The `try` body of `get_exif_date`: prefer `DateTimeOriginal` from the
`Exif` section; only when that guard fails, try `DateTime` from the `0th`
section; with neither present the body returns `None`. -/
def get_exif_date_body (d : ExifDict) : Except String (Option String) :=
  match dateTimeOriginalField d with
  | some bs => (tryParseBytes bs).map some
  | none =>
    match dateTimeField d with
    | some bs => (tryParseBytes bs).map some
    | none => .ok none

/-- Embedding of `get_exif_date` (lines 14-32): the argument is the outcome
of `piexif.load`, and the surrounding `try/except` maps every raised error
to the result `None`. -/
def get_exif_date (loaded : Except String ExifDict) : Option String :=
  match loaded with
  | .error _ => none
  | .ok d =>
    match get_exif_date_body d with
    | .ok r => r
    | .error _ => none

/-- ASCII bytes of a string. -/
def strBytes (s : String) : List Nat := s.toList.map Char.toNat

/-! ### Renderer (`add_watermark_to_image`, lines 55-109)

The external library services a single file's processing consults — image
decoding, EXIF loading, the three `ImageFont.truetype` attempts, the
ambient clock, text measurement and saving — are collected in a `FileWorld`
record; the fallible ones are `Except`-valued.  The body of the function is
an `Except` computation; the surrounding `try/except Exception` (lines
57/108) maps any raised error to "file skipped", i.e. `none`. -/

/-- A decoded image as PIL presents it: dimensions and color mode. -/
structure ImageData where
  width : Int
  height : Int
  mode : String
deriving DecidableEq

/-- A resolved font: a truetype font at a path and size, or PIL's built-in
default bitmap font. -/
inductive Font where
  | truetype (path : String) (size : Int)
  | defaultFont
deriving DecidableEq

/-- One `draw.text` call: position, text and fill color, in call order. -/
structure DrawCmd where
  pos : Int × Int
  text : String
  fill : String
deriving DecidableEq

/-- The external-world outcomes consulted while processing one file:
decoding (`Image.open`), metadata loading (`piexif.load`), the three
truetype load attempts, the clock (`datetime.now()`), text measurement
(`draw.textbbox`) and saving (`img.save`). -/
structure FileWorld where
  openResult : Except String ImageData
  exifLoad : Except String ExifDict
  arialOk : Bool
  systemArialOk : Bool
  freeMonoOk : Bool
  now : DateTime6
  textbbox : Font → String → Int × Int × Int × Int
  saveResult : Except String Unit

/-- The font fallback chain of lines 73-84: `arial.ttf`, then the macOS
Arial path, then FreeMono, then `ImageFont.load_default()`; every failure
is caught in place, so resolution never raises. -/
def resolveFont (w : FileWorld) (font_size : Int) : Font :=
  if w.arialOk then .truetype "arial.ttf" font_size
  else if w.systemArialOk then .truetype "/System/Library/Fonts/Arial.ttf" font_size
  else if w.freeMonoOk then
    .truetype "/usr/share/fonts/truetype/freefont/FreeMono.ttf" font_size
  else .defaultFont

/-- Lines 68-71: the watermark text is the EXIF date; Python falsiness
(`if not watermark_text`) substitutes the formatted current date when the
date is `None` (or an empty string). -/
def watermarkText (w : FileWorld) : String :=
  match get_exif_date w.exifLoad with
  | none => formatYmd w.now
  | some t => if t = "" then formatYmd w.now else t

/-- Line 61-62: non-RGB images are converted to RGB. -/
def rgbConvert (img : ImageData) : ImageData :=
  if img.mode ≠ "RGB" then { img with mode := "RGB" } else img

/-- The observable outcome of successfully processing one file. -/
structure ProcessResult where
  image : ImageData
  cmds : List DrawCmd
  text : String
deriving DecidableEq

/-- The `try` body of `add_watermark_to_image`: open, convert to RGB,
compute the watermark text, resolve the font, measure the text, compute
the anchor coordinates, draw the shadow at `(x+2, y+2)` in the shadow
color (line 95: black whatever the requested color), draw the main text at
`(x, y)` in the requested color, then save. -/
def add_watermark_body (w : FileWorld) (font_size : Int) (color position : String) :
    Except String ProcessResult := do
  let img0 ← w.openResult
  let img := rgbConvert img0
  let watermark_text := watermarkText w
  let font := resolveFont w font_size
  let bbox := w.textbbox font watermark_text
  let text_width := bbox.2.2.1 - bbox.1
  let text_height := bbox.2.2.2 - bbox.2.1
  let xy := get_watermark_position img.width img.height text_width text_height position
  let shadow_color := if color = "white" then "black" else "black"
  let cmds := [⟨(xy.1 + 2, xy.2 + 2), watermark_text, shadow_color⟩,
               ⟨(xy.1, xy.2), watermark_text, color⟩]
  let _ ← w.saveResult
  pure ⟨img, cmds, watermark_text⟩

/-- Embedding of `add_watermark_to_image` (lines 55-109): any exception in
the body is caught (line 108) and the file yields no result. -/
def add_watermark_to_image (w : FileWorld) (font_size : Int) (color position : String) :
    Option ProcessResult :=
  (add_watermark_body w font_size color position).toOption

/-! ### Batch driver (`main`, lines 111-161) -/

/-- The ambient state `main` consults: path existence, file-vs-directory,
the glob results over the twelve extension patterns (directory mode), and
each file's processing world. -/
structure Env where
  pathExists : Bool
  isFile : Bool
  image_path : List Char
  globResults : List (List Char)
  worlds : List Char → FileWorld

/-- Lines 129-133: in single-file mode the input directory is the file's
dirname (or `.` when that is empty); in directory mode it is the input
path itself. -/
def input_dir (env : Env) : List Char :=
  if env.isFile then
    (let d := pyDirname env.image_path; if d = [] then ['.'] else d)
  else env.image_path

/-- Lines 129-139: single-file mode processes exactly that file; directory
mode processes the glob matches. -/
def discoverFiles (env : Env) : List (List Char) :=
  if env.isFile then [env.image_path] else env.globResults

/-- Outcome of a run: the two fatal early exits, or completion carrying the
output directory and one entry per discovered file. -/
inductive RunResult where
  | fatalNotFound
  | fatalNoFiles
  | completed (outdir : List Char) (results : List (List Char × Option ProcessResult))

/-- Embedding of `main` (lines 111-161): validate the input path (line
124), discover files, stop if none matched (line 141), then derive the
output directory and process every file in order, each with its own
world. -/
def mainRun (env : Env) (font_size : Int) (color position : String) : RunResult :=
  if ¬ env.pathExists then .fatalNotFound
  else
    let files := discoverFiles env
    if files = [] then .fatalNoFiles
    else
      .completed (output_dir (input_dir env))
        (files.map (fun f =>
          (f, add_watermark_to_image (env.worlds f) font_size color position)))

/-- Claim C2: a dictionary whose `Exif` section holds `DateTimeOriginal` with
value `2023:05:17 10:22:00` yields `2023年05月17日`; whenever the
original-capture field is present its parse outcome alone decides the
result (the `DateTime` fallback is not consulted); the fallback is used
exactly when the original field is absent; with neither field the result is
`none`. -/
theorem get_exif_date_prefers_original :
    (∀ d : ExifDict,
      dateTimeOriginalField d = some (strBytes "2023:05:17 10:22:00") →
      get_exif_date (.ok d) = some "2023年05月17日") ∧
    (∀ (d : ExifDict) (v : List Nat),
      dateTimeOriginalField d = some v →
      get_exif_date (.ok d) = (tryParseBytes v).toOption) ∧
    (∀ (d : ExifDict) (v : List Nat),
      dateTimeOriginalField d = none → dateTimeField d = some v →
      get_exif_date (.ok d) = (tryParseBytes v).toOption) ∧
    (∀ d : ExifDict,
      dateTimeOriginalField d = none → dateTimeField d = none →
      get_exif_date (.ok d) = none) := by
  have hprim : ∀ (d : ExifDict) (v : List Nat),
      dateTimeOriginalField d = some v →
      get_exif_date (.ok d) = (tryParseBytes v).toOption := by
    intro d v hv
    simp only [get_exif_date, get_exif_date_body, hv]
    cases tryParseBytes v <;> rfl
  refine ⟨?_, hprim, ?_, ?_⟩
  · intro d hv
    rw [hprim d _ hv]
    rfl
  · intro d v hv hv2
    simp only [get_exif_date, get_exif_date_body, hv, hv2]
    cases tryParseBytes v <;> rfl
  · intro d hv hv2
    simp only [get_exif_date, get_exif_date_body, hv, hv2]

/-- Witness for C2: a concrete dictionary carrying both an original-capture
timestamp `2023:05:17 10:22:00` and a different last-modified timestamp;
the result is the original's formatted date. -/
theorem get_exif_date_prefers_original_witness :
    dateTimeOriginalField
        ⟨[("Exif", [(36867, strBytes "2023:05:17 10:22:00")]),
          ("0th", [(306, strBytes "1999:01:01 00:00:00")])]⟩ =
      some (strBytes "2023:05:17 10:22:00") ∧
    get_exif_date (.ok
        ⟨[("Exif", [(36867, strBytes "2023:05:17 10:22:00")]),
          ("0th", [(306, strBytes "1999:01:01 00:00:00")])]⟩) =
      some "2023年05月17日" :=
  ⟨rfl, get_exif_date_prefers_original.1 _ rfl⟩

/-- Claim C5: `get_exif_date` never propagates an exception: a failed
metadata load yields `none`, absent fields yield `none`, and an
unparsable timestamp value in either field yields `none` (it is caught by
the surrounding `try/except`). -/
theorem get_exif_date_never_throws :
    (∀ e : String, get_exif_date (.error e) = none) ∧
    (∀ d : ExifDict,
      dateTimeOriginalField d = none → dateTimeField d = none →
      get_exif_date (.ok d) = none) ∧
    (∀ (d : ExifDict) (v : List Nat) (e : String),
      dateTimeOriginalField d = some v → tryParseBytes v = .error e →
      get_exif_date (.ok d) = none) ∧
    (∀ (d : ExifDict) (v : List Nat) (e : String),
      dateTimeOriginalField d = none → dateTimeField d = some v →
      tryParseBytes v = .error e →
      get_exif_date (.ok d) = none) := by
  refine ⟨fun e => rfl, ?_, ?_, ?_⟩
  · intro d hv hv2
    simp only [get_exif_date, get_exif_date_body, hv, hv2]
  · intro d v e hv he
    simp only [get_exif_date, get_exif_date_body, hv, he]
    rfl
  · intro d v e hv hv2 he
    simp only [get_exif_date, get_exif_date_body, hv, hv2, he]
    rfl

/-- Witness for C5 at concrete inputs: a failed load, an empty dictionary,
and a dictionary whose original-capture field holds the unparsable value
`not a date`, all yield `none`. -/
theorem get_exif_date_never_throws_witness :
    get_exif_date (.error "load failed") = none ∧
    get_exif_date (.ok ⟨[]⟩) = none ∧
    get_exif_date (.ok ⟨[("Exif", [(36867, strBytes "not a date")])]⟩) = none :=
  ⟨get_exif_date_never_throws.1 "load failed",
   get_exif_date_never_throws.2.1 ⟨[]⟩ rfl rfl,
   get_exif_date_never_throws.2.2.1 ⟨[("Exif", [(36867, strBytes "not a date")])]⟩
     (strBytes "not a date") "time data does not match format" rfl rfl⟩

/-- A world in which every library service succeeds: a 200×100 CMYK image
whose EXIF carries `DateTimeOriginal = 2023:05:17 10:22:00`, `arial.ttf`
loads, the measured text box is 60×20, and saving succeeds. -/
def okWorld : FileWorld where
  openResult := .ok ⟨200, 100, "CMYK"⟩
  exifLoad := .ok ⟨[("Exif", [(36867, strBytes "2023:05:17 10:22:00")])]⟩
  arialOk := true
  systemArialOk := false
  freeMonoOk := false
  now := ⟨2026, 10, 12, 0, 0, 0⟩
  textbbox := fun _ _ => (0, 0, 60, 20)
  saveResult := .ok ()

/-- A world whose image fails to decode (`Image.open` raises). -/
def badWorld : FileWorld :=
  { okWorld with openResult := .error "cannot identify image file" }

/-- A directory-mode environment with one healthy and one corrupt file. -/
def sampleEnv : Env where
  pathExists := true
  isFile := false
  image_path := "/a".toList
  globResults := ["/a/ok.jpg".toList, "/a/bad.jpg".toList]
  worlds := fun f => if f = "/a/bad.jpg".toList then badWorld else okWorld

/-- Claim C3: any exception inside the per-file body is caught by
`add_watermark_to_image` itself, which then yields no result instead of
propagating; the only two terminating conditions of `mainRun` are a
missing input path and an empty file list, both decided before any file is
touched (their outcomes carry no per-file results); otherwise the run
completes with exactly one entry per discovered file, in order, whatever
each file's world does. -/
theorem batch_isolates_per_file_failures :
    (∀ (w : FileWorld) (fs : Int) (c p e : String),
      add_watermark_body w fs c p = .error e →
      add_watermark_to_image w fs c p = none) ∧
    (∀ (env : Env) (fs : Int) (c p : String),
      env.pathExists = false → mainRun env fs c p = .fatalNotFound) ∧
    (∀ (env : Env) (fs : Int) (c p : String),
      env.pathExists = true → discoverFiles env = [] →
      mainRun env fs c p = .fatalNoFiles) ∧
    (∀ (env : Env) (fs : Int) (c p : String),
      env.pathExists = true → discoverFiles env ≠ [] →
      ∃ rs, mainRun env fs c p = .completed (output_dir (input_dir env)) rs ∧
        rs.map Prod.fst = discoverFiles env ∧
        ∀ f ∈ discoverFiles env,
          (f, add_watermark_to_image (env.worlds f) fs c p) ∈ rs) := by
  refine ⟨?_, ?_, ?_, ?_⟩
  · intro w fs c p e he
    simp [add_watermark_to_image, he, Except.toOption]
  · intro env fs c p hp
    simp [mainRun, hp]
  · intro env fs c p hp hd
    simp [mainRun, hp, hd]
  · intro env fs c p hp hd
    refine ⟨(discoverFiles env).map
      (fun f => (f, add_watermark_to_image (env.worlds f) fs c p)), ?_, ?_, ?_⟩
    · unfold mainRun
      rw [hp]
      simp only [not_true_eq_false, if_false]
      rw [if_neg hd]
    · rw [List.map_map]
      exact List.map_id _
    · intro f hf
      exact List.mem_map_of_mem _ hf

/-- Witness for C3: the corrupt-file world is skipped (`none`), and the
two-file environment completes with an entry for both files. -/
theorem batch_isolates_per_file_failures_witness :
    add_watermark_to_image badWorld 36 "white" "bottom-right" = none ∧
    (∃ rs, mainRun sampleEnv 36 "white" "bottom-right" =
        .completed (output_dir (input_dir sampleEnv)) rs ∧
      rs.map Prod.fst = discoverFiles sampleEnv ∧
      ∀ f ∈ discoverFiles sampleEnv,
        (f, add_watermark_to_image (sampleEnv.worlds f) 36 "white" "bottom-right") ∈ rs) :=
  ⟨batch_isolates_per_file_failures.1 badWorld 36 "white" "bottom-right"
      "cannot identify image file" rfl,
   batch_isolates_per_file_failures.2.2.2 sampleEnv 36 "white" "bottom-right" rfl
      (by simp [discoverFiles, sampleEnv])⟩

/-- The measured text-box width (line 88: `bbox[2] - bbox[0]`). -/
def measuredWidth (w : FileWorld) (fs : Int) : Int :=
  (w.textbbox (resolveFont w fs) (watermarkText w)).2.2.1 -
    (w.textbbox (resolveFont w fs) (watermarkText w)).1

/-- The measured text-box height (line 89: `bbox[3] - bbox[1]`). -/
def measuredHeight (w : FileWorld) (fs : Int) : Int :=
  (w.textbbox (resolveFont w fs) (watermarkText w)).2.2.2 -
    (w.textbbox (resolveFont w fs) (watermarkText w)).2.1

/-- The anchor coordinates computed on line 92 for a decoded image. -/
def anchorXY (w : FileWorld) (fs : Int) (pos : String) (img : ImageData) : Int × Int :=
  get_watermark_position (rgbConvert img).width (rgbConvert img).height
    (measuredWidth w fs) (measuredHeight w fs) pos

/-- Claim C7: whenever a file is processed (decode and save succeed), the
renderer emits exactly two `draw.text` calls: first the shadow copy of the
watermark text at the anchor coordinates offset by `(+2, +2)` filled solid
black — whatever the requested color — then the main text at the anchor
coordinates in the requested color, on top of the shadow. -/
theorem shadow_black_then_main (w : FileWorld) (fs : Int) (color pos : String)
    (img : ImageData) (hopen : w.openResult = .ok img)
    (hsave : w.saveResult = .ok ()) :
    ∃ r : ProcessResult,
      add_watermark_to_image w fs color pos = some r ∧
      r.text = watermarkText w ∧
      r.cmds = [⟨((anchorXY w fs pos img).1 + 2, (anchorXY w fs pos img).2 + 2),
                  watermarkText w, "black"⟩,
                ⟨anchorXY w fs pos img, watermarkText w, color⟩] := by
  have hsc : (if color = "white" then "black" else "black") = "black" := ite_self _
  have hbody : add_watermark_body w fs color pos = .ok
      ⟨rgbConvert img,
       [⟨((anchorXY w fs pos img).1 + 2, (anchorXY w fs pos img).2 + 2),
          watermarkText w, "black"⟩,
        ⟨anchorXY w fs pos img, watermarkText w, color⟩],
       watermarkText w⟩ := by
    unfold add_watermark_body
    rw [hopen, hsave, hsc]
    rfl
  refine ⟨⟨rgbConvert img,
       [⟨((anchorXY w fs pos img).1 + 2, (anchorXY w fs pos img).2 + 2),
          watermarkText w, "black"⟩,
        ⟨anchorXY w fs pos img, watermarkText w, color⟩],
       watermarkText w⟩, ?_, rfl, rfl⟩
  unfold add_watermark_to_image
  rw [hbody]
  rfl

/-- Witness for C7: the healthy world with requested color "red" draws the
black shadow first, then the red main text. -/
theorem shadow_black_then_main_witness :
    ∃ r : ProcessResult,
      add_watermark_to_image okWorld 36 "red" "bottom-right" = some r ∧
      r.text = watermarkText okWorld ∧
      r.cmds = [⟨((anchorXY okWorld 36 "bottom-right" ⟨200, 100, "CMYK"⟩).1 + 2,
                  (anchorXY okWorld 36 "bottom-right" ⟨200, 100, "CMYK"⟩).2 + 2),
                  watermarkText okWorld, "black"⟩,
                ⟨anchorXY okWorld 36 "bottom-right" ⟨200, 100, "CMYK"⟩,
                  watermarkText okWorld, "red"⟩] :=
  shadow_black_then_main okWorld 36 "red" "bottom-right" ⟨200, 100, "CMYK"⟩ rfl rfl

/-- Claim C9: processing is deterministic: two worlds that agree on the
decoded image, the font environment, the text measurement service and the
save outcome — and carry the same effective watermark text (same capture
date; the ambient clock may differ) — produce identical results, byte for
byte; no randomness enters font resolution, layout or rendering. -/
theorem render_deterministic (w1 w2 : FileWorld) (fs : Int) (c p : String)
    (hopen : w1.openResult = w2.openResult)
    (harial : w1.arialOk = w2.arialOk)
    (hsys : w1.systemArialOk = w2.systemArialOk)
    (hfree : w1.freeMonoOk = w2.freeMonoOk)
    (hbb : w1.textbbox = w2.textbbox)
    (hsave : w1.saveResult = w2.saveResult)
    (htext : watermarkText w1 = watermarkText w2) :
    add_watermark_to_image w1 fs c p = add_watermark_to_image w2 fs c p := by
  simp only [add_watermark_to_image, add_watermark_body, resolveFont,
    hopen, harial, hsys, hfree, hbb, hsave, htext]

/-- Witness for C9: two copies of the healthy world whose clocks differ by
27 years produce the same output, since the capture date comes from EXIF. -/
theorem render_deterministic_witness :
    add_watermark_to_image okWorld 36 "white" "center" =
      add_watermark_to_image { okWorld with now := ⟨1999, 1, 1, 0, 0, 0⟩ } 36 "white" "center" :=
  render_deterministic okWorld { okWorld with now := ⟨1999, 1, 1, 0, 0, 0⟩ }
    36 "white" "center" rfl rfl rfl rfl rfl rfl rfl

/-! ### Filesystem frame: write targets of a run -/

/-- The glob patterns of lines 135-139: the six lowercase extensions and
their uppercase variants. -/
def imageExtensions : List (List Char) :=
  [".jpg".toList, ".jpeg".toList, ".png".toList, ".tiff".toList, ".bmp".toList,
   ".webp".toList, ".JPG".toList, ".JPEG".toList, ".PNG".toList, ".TIFF".toList,
   ".BMP".toList, ".WEBP".toList]

/-- The directory-creation targets of a run: `os.makedirs(output_dir)` at
line 147 once files were discovered, and
`os.makedirs(os.path.dirname(output_path))` at line 102 for every file
whose processing reaches that line (only decoding can fail earlier). -/
def mkdirTargets (env : Env) : List (List Char) :=
  if ¬ env.pathExists then []
  else if discoverFiles env = [] then []
  else
    output_dir (input_dir env) ::
      (discoverFiles env).filterMap (fun f =>
        match (env.worlds f).openResult with
        | .error _ => none
        | .ok _ => some (pyDirname (pyJoin (output_dir (input_dir env)) (pyBasename f))))

/-- The file-write targets of a run: `img.save(output_path)` at line 105
for every file whose processing reaches it, with
`output_path = os.path.join(output_dir, os.path.basename(file))`
(lines 156-157). -/
def saveTargets (env : Env) : List (List Char) :=
  if ¬ env.pathExists then []
  else if discoverFiles env = [] then []
  else
    (discoverFiles env).filterMap (fun f =>
      match (env.worlds f).openResult with
      | .error _ => none
      | .ok _ => some (pyJoin (output_dir (input_dir env)) (pyBasename f)))

lemma takeWhile_append_all (p : Char → Bool) (l1 l2 : List Char)
    (h : ∀ c ∈ l1, p c = true) :
    List.takeWhile p (l1 ++ l2) = l1 ++ List.takeWhile p l2 := by
  induction l1 with
  | nil => simp
  | cons a t ih =>
      rw [List.cons_append, List.takeWhile_cons, if_pos (h a (by simp)),
        ih (fun c hc => h c (by simp [hc])), List.cons_append]

lemma takeWhile_cons_false (p : Char → Bool) (a : Char) (l : List Char)
    (h : p a = false) : List.takeWhile p (a :: l) = [] := by
  rw [List.takeWhile_cons, if_neg (by simp [h])]

lemma pyBasename_append_slash (d t : List Char)
    (ht : ∀ c ∈ t, (c == '/') = false) :
    pyBasename (d ++ '/' :: t) = t := by
  unfold pyBasename
  rw [show (d ++ '/' :: t).reverse = t.reverse ++ '/' :: d.reverse by simp]
  rw [takeWhile_append_all _ _ _
    (fun c hc => by simp [bne, ht c (List.mem_reverse.mp hc)])]
  rw [takeWhile_cons_false _ _ _ (by simp)]
  simp

lemma pyBasename_no_slash (p : List Char) (h : ∀ c ∈ p, (c == '/') = false) :
    pyBasename p = p := by
  unfold pyBasename
  conv_lhs => rw [show p.reverse = p.reverse ++ [] by simp]
  rw [takeWhile_append_all _ _ _
    (fun c hc => by simp [bne, h c (List.mem_reverse.mp hc)])]
  simp

lemma pyDirname_no_slash (p : List Char) (h : ∀ c ∈ p, (c == '/') = false) :
    pyDirname p = [] := by
  unfold pyDirname
  have hd : List.dropWhile (fun c => c != '/') p.reverse = [] := by
    rw [List.dropWhile_eq_nil_iff]
    intro x hx
    simp [bne, h x (List.mem_reverse.mp hx)]
  simp [hd]

lemma head?_ne_slash (l : List Char) (h : ∀ c ∈ l, (c == '/') = false) :
    l.head? ≠ some '/' := by
  cases l with
  | nil => simp
  | cons a t =>
      simp only [List.head?_cons, ne_eq, Option.some.injEq]
      intro ha
      have := h a (List.mem_cons_self a t)
      rw [ha] at this
      simp at this

lemma ext_no_slash : ∀ ext ∈ imageExtensions, ∀ c ∈ ext, (c == '/') = false := by
  decide

/-- The watermark suffix has no slash and ends in `k`. -/
lemma wm_suffix_facts :
    (∀ c ∈ "_watermark".toList, (c == '/') = false) ∧
    ("_watermark".toList).getLast? = some 'k' ∧
    ("_watermark".toList).length = 10 := by
  decide

/-- The input directory of a well-formed run is nonempty and has no
trailing slash. -/
lemma input_dir_wf (env : Env)
    (hne : env.image_path ≠ [])
    (hsl : env.image_path.getLast? ≠ some '/')
    (hfile : env.isFile = true → ∃ dirp name,
      (∀ ch ∈ name, (ch == '/') = false) ∧
      (env.image_path = name ∨
        (dirp ≠ [] ∧ dirp.getLast? ≠ some '/' ∧ env.image_path = dirp ++ '/' :: name))) :
    input_dir env ≠ [] ∧ (input_dir env).getLast? ≠ some '/' := by
  unfold input_dir
  cases hf : env.isFile with
  | false => simpa using ⟨hne, hsl⟩
  | true =>
      obtain ⟨dirp, name, hname, hcase⟩ := hfile hf
      rcases hcase with hflat | ⟨hd1, hd2, hsplit⟩
      · rw [hflat, pyDirname_no_slash name hname]
        simp
      · rw [hsplit, pyDirname_append_slash dirp name hd1 hd2 hname]
        simp [hd1, hd2]

/-- Structure of the output directory under the well-formedness facts. -/
lemma output_dir_structure (d : List Char) (hd : d ≠ [])
    (hlast : d.getLast? ≠ some '/') :
    output_dir d = d ++ '/' :: (pyBasename d ++ "_watermark".toList) ∧
    output_dir d ≠ [] ∧
    (output_dir d).getLast? = some 'k' := by
  have he := output_dir_eq d hd hlast
  refine ⟨he, ?_, ?_⟩
  · rw [he]
    simp
  · rw [he, List.getLast?_append_of_ne_nil _ (by simp),
      show ('/' :: (pyBasename d ++ "_watermark".toList)) =
        ('/' :: pyBasename d) ++ "_watermark".toList by simp,
      List.getLast?_append_of_ne_nil _ (by decide)]
    exact wm_suffix_facts.2.1

/-- Claim C8: every directory creation of a run targets exactly the derived
output directory; every file write targets a path strictly inside the
output directory (the output directory followed by a slash and a slash-free
file name); and no discovered source file is ever a file-write target, so
source bytes are unchanged.  Hypotheses: the input path is nonempty
without a trailing slash; in directory mode the glob results match
`<input>/<stem><ext>` with a slash-free stem and one of the twelve
extension patterns; in single-file mode the path is in normal form
(`name` or `dir/name`). -/
theorem writes_confined_to_output_dir (env : Env)
    (hne : env.image_path ≠ [])
    (hsl : env.image_path.getLast? ≠ some '/')
    (hglob : env.isFile = false → ∀ f ∈ env.globResults, ∃ stem ext,
      ext ∈ imageExtensions ∧ (∀ ch ∈ stem, (ch == '/') = false) ∧
      f = pyJoin env.image_path (stem ++ ext))
    (hfile : env.isFile = true → ∃ dirp name,
      (∀ ch ∈ name, (ch == '/') = false) ∧
      (env.image_path = name ∨
        (dirp ≠ [] ∧ dirp.getLast? ≠ some '/' ∧ env.image_path = dirp ++ '/' :: name))) :
    (∀ q ∈ mkdirTargets env, q = output_dir (input_dir env)) ∧
    (∀ q ∈ saveTargets env, ∃ nm, (∀ ch ∈ nm, (ch == '/') = false) ∧
      q = output_dir (input_dir env) ++ '/' :: nm) ∧
    (∀ f ∈ discoverFiles env, f ∉ saveTargets env) := by
  obtain ⟨hid1, hid2⟩ := input_dir_wf env hne hsl hfile
  obtain ⟨hod, hod1, hod2⟩ := output_dir_structure (input_dir env) hid1 hid2
  have hodk : (output_dir (input_dir env)).getLast? ≠ some '/' := by
    rw [hod2]
    simp
  have hsavepath : ∀ f : List Char,
      pyJoin (output_dir (input_dir env)) (pyBasename f) =
        output_dir (input_dir env) ++ '/' :: pyBasename f := fun f =>
    pyJoin_eq_append _ _ hod1 hodk
      (head?_ne_slash _ (mem_pyBasename_ne_slash f))
  refine ⟨?_, ?_, ?_⟩
  · intro q hq
    unfold mkdirTargets at hq
    split at hq
    · simp at hq
    · split at hq
      · simp at hq
      · rcases List.mem_cons.mp hq with hq | hq
        · exact hq
        · obtain ⟨f, -, hf2⟩ := List.mem_filterMap.mp hq
          cases hopen : (env.worlds f).openResult with
          | error e => rw [hopen] at hf2; simp at hf2
          | ok img =>
              rw [hopen] at hf2
              simp only [Option.some.injEq] at hf2
              rw [← hf2, hsavepath f]
              exact pyDirname_append_slash _ _ hod1 hodk (mem_pyBasename_ne_slash f)
  · intro q hq
    unfold saveTargets at hq
    split at hq
    · simp at hq
    · split at hq
      · simp at hq
      · obtain ⟨f, -, hf2⟩ := List.mem_filterMap.mp hq
        cases hopen : (env.worlds f).openResult with
        | error e => rw [hopen] at hf2; simp at hf2
        | ok img =>
            rw [hopen] at hf2
            simp only [Option.some.injEq] at hf2
            exact ⟨pyBasename f, mem_pyBasename_ne_slash f, by rw [← hf2, hsavepath f]⟩
  · intro f hf hmem
    unfold saveTargets at hmem
    split at hmem
    · simp at hmem
    · split at hmem
      · simp at hmem
      · obtain ⟨g, hg1, hg2⟩ := List.mem_filterMap.mp hmem
        cases hopen : (env.worlds g).openResult with
        | error e => rw [hopen] at hg2; simp at hg2
        | ok img =>
            rw [hopen] at hg2
            simp only [Option.some.injEq] at hg2
            rw [hsavepath g] at hg2
            -- `f` is a discovered source file equal to a save path: derive
            -- a contradiction in each discovery mode.
            unfold discoverFiles at hf hg1
            cases hisf : env.isFile with
            | false =>
                rw [hisf] at hf
                simp only [Bool.false_eq_true, if_false] at hf
                obtain ⟨stem, ext, hext, hstem, hsplit⟩ := hglob hisf f hf
                have hallns : ∀ ch ∈ stem ++ ext, (ch == '/') = false := by
                  intro ch hch
                  rcases List.mem_append.mp hch with h | h
                  · exact hstem ch h
                  · exact ext_no_slash ext hext ch h
                have hf' : f = env.image_path ++ '/' :: (stem ++ ext) := by
                  rw [hsplit]
                  exact pyJoin_eq_append _ _ hne hsl (head?_ne_slash _ hallns)
                have hid : input_dir env = env.image_path := by
                  unfold input_dir
                  rw [hisf]
                  simp
                rw [hf', hod, hid, List.append_assoc] at hg2
                have hg3 := List.append_cancel_left hg2.symm
                simp only [List.cons_append, List.cons.injEq, true_and] at hg3
                have : ('/' : Char) ∈ stem ++ ext := by
                  rw [hg3]
                  exact List.mem_append.mpr (Or.inr (List.mem_cons_self _ _))
                have := hallns '/' this
                simp at this
            | true =>
                rw [hisf] at hf hg1
                simp only [if_true, List.mem_singleton] at hf hg1
                obtain ⟨dirp, name, hname, hcase⟩ := hfile hisf
                have hlen := congrArg List.length hg2
                rw [hf, hg1] at hlen
                rcases hcase with hflat | ⟨hd1, hd2, hsplit⟩
                · have hid : input_dir env = ['.'] := by
                    unfold input_dir
                    rw [hisf, hflat, pyDirname_no_slash name hname]
                    simp
                  have hbn : pyBasename env.image_path = name := by
                    rw [hflat]
                    exact pyBasename_no_slash name hname
                  rw [hod, hid, hbn, hflat] at hlen
                  simp [wm_suffix_facts.2.2, pyBasename] at hlen
                  omega
                · have hid : input_dir env = dirp := by
                    unfold input_dir
                    rw [hisf, hsplit, pyDirname_append_slash dirp name hd1 hd2 hname]
                    simp [hd1]
                  have hbn : pyBasename env.image_path = name := by
                    rw [hsplit]
                    exact pyBasename_append_slash dirp name hname
                  rw [hod, hid, hbn, hsplit] at hlen
                  simp [wm_suffix_facts.2.2] at hlen
                  omega

/-- Witness for C8 at the concrete two-file environment: all directory
creations target the output directory, all file writes land strictly inside
it, and neither source file is a write target. -/
theorem writes_confined_to_output_dir_witness :
    (∀ q ∈ mkdirTargets sampleEnv, q = output_dir (input_dir sampleEnv)) ∧
    (∀ q ∈ saveTargets sampleEnv, ∃ nm, (∀ ch ∈ nm, (ch == '/') = false) ∧
      q = output_dir (input_dir sampleEnv) ++ '/' :: nm) ∧
    (∀ f ∈ discoverFiles sampleEnv, f ∉ saveTargets sampleEnv) :=
  writes_confined_to_output_dir sampleEnv (by decide) (by decide)
    (by
      intro _ f hf
      simp only [sampleEnv, List.mem_cons, List.mem_singleton] at hf
      rcases hf with hf | hf | hf
      · exact ⟨"ok".toList, ".jpg".toList, by decide, by decide, by rw [hf]; decide⟩
      · exact ⟨"bad".toList, ".jpg".toList, by decide, by decide, by rw [hf]; decide⟩
      · cases hf)
    (by intro h; exact absurd h (by decide))

end Watermark
